import Mathlib

/-!
# Verification of the `autobackup` repository

This file gives a shallow embedding of the repository's installer script
`setup.py`, together with a model (from the specification) of the backup
core (`ConfigLoader`, `BackupEngine`) that the installed command implies,
and proves the specification's claims about them.

The installer is modelled as a pure state-transformer over an abstract
filesystem together with an explicit trace of effects (prints, directory
creations, file copies); `sys.prefix` is a parameter.
-/

/-! ## Path utilities (model of `os.path.join` / `os.path.dirname`, POSIX flavour) -/

/-- Does the string start with a `/` (i.e. is it an absolute POSIX path)? -/
def startsWithSlash (s : String) : Bool := s.data.head? = some '/'

/-- Does the string end with a `/`? -/
def endsWithSlash (s : String) : Bool := s.data.getLast? = some '/'

/-- Model of `posixpath.join` on two components: if the second component is
absolute it replaces the first; if the first is empty or ends with a slash
the second is appended directly; otherwise a slash separates them. -/
def osPathJoin (a b : String) : String :=
  if startsWithSlash b then b
  else if a.data.isEmpty || endsWithSlash a then a ++ b
  else a ++ "/" ++ b

/-- Helper for `osPathDirname`: everything of the path up to (and normally
excluding) the last slash, as `posixpath.dirname` computes it. -/
def dirnameData (l : List Char) : List Char :=
  match l.reverse.dropWhile (fun c => ¬ c = '/') with
  | [] => []
  | revHead =>
    if revHead.all (fun c => c = '/') then revHead.reverse
    else (revHead.dropWhile (fun c => c = '/')).reverse

/-- Model of `posixpath.dirname`. -/
def osPathDirname (s : String) : String := String.mk (dirnameData s.data)

/-! ## Abstract filesystem and effect trace -/

/-- An abstract filesystem: which directories exist, and the contents of
existing regular files. -/
structure FS where
  dirs : String → Bool
  files : String → Option String

/-- Model of `os.path.exists`: the path exists as a directory or as a file. -/
def pathExists (fs : FS) (p : String) : Bool := fs.dirs p || (fs.files p).isSome

/-- Effect of `os.mkdir p` on the filesystem. -/
def mkdirFS (fs : FS) (p : String) : FS :=
  { fs with dirs := fun q => if q = p then true else fs.dirs q }

/-- Effect of writing content `c` to path `p` (as `shutil.copy` does at the
destination). -/
def writeFileFS (fs : FS) (p : String) (c : String) : FS :=
  { fs with files := fun q => if q = p then some c else fs.files q }

/-- One observable effect of running the installer. -/
inductive Event where
  /-- The standard setuptools installation `install.run(self)` (external). -/
  | standardInstall : Event
  /-- A `print(...)` call. -/
  | print (msg : String) : Event
  /-- An `os.mkdir(dir)` call. -/
  | mkdir (dir : String) : Event
  /-- A `shutil.copy(src, dest)` call. -/
  | copyFile (src dest : String) : Event
deriving DecidableEq

/-! ## The constants of `setup.py` -/

/-- `SRC_CONFIG_FILE = 'config/workstations.cfg'` -/
def SRC_CONFIG_FILE : String := "config/workstations.cfg"

/-- `DEST_CONFIG_FILE = os.path.join(sys.prefix, 'etc', 'autobackup.cfg')`,
with `sys.prefix` as the parameter `pfx`. -/
def DEST_CONFIG_FILE (pfx : String) : String :=
  osPathJoin (osPathJoin pfx "etc") "autobackup.cfg"

/-- The reminder header printed by `_print_cron_update_cmd`. -/
def cronReminderHeader : String :=
  "To run autobackup every day at 2:00 am, update the crontab:"

/-- The crontab line printed by `_print_cron_update_cmd`. -/
def cronLine : String := "0  2    * * *   root    /usr/local/bin/autobackup"

/-- The `scripts=['scripts/autobackup']` argument of the `setup(...)` call. -/
def setupScripts : List String := ["scripts/autobackup"]

/-! ## The `PostInstallCommand` methods -/

/-- `PostInstallCommand._mk_config_file_dir`: create the directory that will
hold `dest_config`, but only when it does not already exist. Returns the new
filesystem and the trace of effects. -/
def PostInstallCommand.mk_config_file_dir (fs : FS) (dest_config : String) :
    FS × List Event :=
  let dirname := osPathDirname dest_config
  if pathExists fs dirname then (fs, [])
  else (mkdirFS fs dirname, [Event.mkdir dirname])

/-- `PostInstallCommand._install_config_file`: ensure the destination
directory exists, print the copy message, and copy the source configuration
file onto the destination path. `shutil.copy` fails when the source file is
missing, hence the `Except`. -/
def PostInstallCommand.install_config_file (pfx : String) (fs : FS) :
    Except String (FS × List Event) :=
  let src_config := SRC_CONFIG_FILE
  let dest_config := DEST_CONFIG_FILE pfx
  let st := PostInstallCommand.mk_config_file_dir fs dest_config
  match st.1.files src_config with
  | none => Except.error ("No such file or directory: " ++ src_config)
  | some c =>
      Except.ok (writeFileFS st.1 dest_config c,
        st.2 ++ [Event.print ("copying " ++ src_config ++ " -> " ++ dest_config),
                 Event.copyFile src_config dest_config])

/-- The trace of `PostInstallCommand._print_cron_update_cmd`: two prints. -/
def PostInstallCommand.print_cron_update_cmd : List Event :=
  [Event.print cronReminderHeader, Event.print cronLine]

/-- `PostInstallCommand.run`: the standard installation (modelled as the
abstract `standardInstall` event, since setuptools' behaviour is external to
this repository), then `_install_config_file`, then `_print_cron_update_cmd`. -/
def PostInstallCommand.run (pfx : String) (fs : FS) :
    Except String (FS × List Event) :=
  match PostInstallCommand.install_config_file pfx fs with
  | Except.error e => Except.error e
  | Except.ok st =>
      Except.ok (st.1,
        Event.standardInstall :: (st.2 ++ PostInstallCommand.print_cron_update_cmd))

/-- Python tuple comparison `<` on version tuples (lexicographic; a strict
prefix is smaller). -/
def pyVersionLt : List Nat → List Nat → Bool
  | _, [] => false
  | [], _ :: _ => true
  | x :: xs, y :: ys => if x < y then true else if y < x then false else pyVersionLt xs ys

/-- The top level of `setup.py`: the `sys.version_info < (3,)` guard calls
`sys.exit` with a message before anything else; otherwise (in install mode)
the `setup(...)` call dispatches to `PostInstallCommand.run`. -/
def setupPyMain (versionInfo : List Nat) (pfx : String) (fs : FS) :
    Except String (FS × List Event) :=
  if pyVersionLt versionInfo [3] then
    Except.error "Sorry, Python < 3.x is not supported"
  else PostInstallCommand.run pfx fs

/-! ## Auxiliary: whitespace splitting (Python `str.split()` with no argument) -/

/-- Helper for `wordsOf`: accumulates the current word (reversed) while
scanning the character list. -/
def wordsAux : List Char → List Char → List String
  | cur, [] => if cur.isEmpty then [] else [String.mk cur.reverse]
  | cur, ch :: rest =>
    if ch.isWhitespace then
      if cur.isEmpty then wordsAux [] rest
      else String.mk cur.reverse :: wordsAux [] rest
    else wordsAux (ch :: cur) rest

/-- The whitespace-separated fields of a string, as Python's `str.split()`
(and a crontab parser) would produce them. -/
def wordsOf (s : String) : List String := wordsAux [] s.data

/-! ## Basic lemmas about the installer model -/

theorem strData_append (a b : String) : (a ++ b).data = a.data ++ b.data := by
  cases a; cases b; rfl

theorem mk_config_file_dir_files (fs : FS) (d : String) :
    (PostInstallCommand.mk_config_file_dir fs d).1.files = fs.files := by
  simp only [PostInstallCommand.mk_config_file_dir]
  split <;> rfl

theorem mk_config_file_dir_events (fs : FS) (d : String) :
    (PostInstallCommand.mk_config_file_dir fs d).2 =
      if pathExists fs (osPathDirname d) then [] else [Event.mkdir (osPathDirname d)] := by
  simp only [PostInstallCommand.mk_config_file_dir]
  split <;> simp_all

theorem install_config_file_ok (pfx : String) (fs : FS) (c : String)
    (h : fs.files SRC_CONFIG_FILE = some c) :
    PostInstallCommand.install_config_file pfx fs =
      Except.ok
        (writeFileFS (PostInstallCommand.mk_config_file_dir fs (DEST_CONFIG_FILE pfx)).1
          (DEST_CONFIG_FILE pfx) c,
         (PostInstallCommand.mk_config_file_dir fs (DEST_CONFIG_FILE pfx)).2 ++
           [Event.print ("copying " ++ SRC_CONFIG_FILE ++ " -> " ++ DEST_CONFIG_FILE pfx),
            Event.copyFile SRC_CONFIG_FILE (DEST_CONFIG_FILE pfx)]) := by
  simp only [PostInstallCommand.install_config_file]
  rw [mk_config_file_dir_files, h]

/-! ## Claim theorems about `setup.py` -/

/-- C1: every install run first performs the standard installation, then
copies `config/workstations.cfg` to the destination under the system prefix
(creating the destination directory first when it is absent), and finally
prints the reminder about scheduling a periodic job — in that order, as the
trace of events shows. -/
theorem postInstall_run_order (pfx : String) (fs : FS) (c : String)
    (h : fs.files SRC_CONFIG_FILE = some c) :
    ∃ fs1, PostInstallCommand.run pfx fs =
      Except.ok (fs1,
        Event.standardInstall ::
          ((if pathExists fs (osPathDirname (DEST_CONFIG_FILE pfx)) then []
            else [Event.mkdir (osPathDirname (DEST_CONFIG_FILE pfx))]) ++
           [Event.print ("copying " ++ SRC_CONFIG_FILE ++ " -> " ++ DEST_CONFIG_FILE pfx),
            Event.copyFile SRC_CONFIG_FILE (DEST_CONFIG_FILE pfx),
            Event.print cronReminderHeader,
            Event.print cronLine])) := by
  refine ⟨writeFileFS (PostInstallCommand.mk_config_file_dir fs (DEST_CONFIG_FILE pfx)).1
    (DEST_CONFIG_FILE pfx) c, ?_⟩
  simp only [PostInstallCommand.run, install_config_file_ok pfx fs c h]
  rw [mk_config_file_dir_events]
  simp only [PostInstallCommand.print_cron_update_cmd]
  split <;> simp

/-- C1 witness: a concrete run (prefix `/usr`, source config present, `/usr/etc`
absent) produces exactly the claimed event order. -/
theorem postInstall_run_order_witness :
    ∃ fs1, PostInstallCommand.run "/usr" ⟨fun _ => false, fun p => if p = SRC_CONFIG_FILE then some "cfg" else none⟩ =
      Except.ok (fs1,
        Event.standardInstall ::
          ((if pathExists ⟨fun _ => false, fun p => if p = SRC_CONFIG_FILE then some "cfg" else none⟩
                (osPathDirname (DEST_CONFIG_FILE "/usr")) then []
            else [Event.mkdir (osPathDirname (DEST_CONFIG_FILE "/usr"))]) ++
           [Event.print ("copying " ++ SRC_CONFIG_FILE ++ " -> " ++ DEST_CONFIG_FILE "/usr"),
            Event.copyFile SRC_CONFIG_FILE (DEST_CONFIG_FILE "/usr"),
            Event.print cronReminderHeader,
            Event.print cronLine])) :=
  postInstall_run_order "/usr" _ "cfg" (by decide)

/-- C2: `_mk_config_file_dir` creates the directory holding the destination
configuration file only when it does not already exist; when it exists, the
filesystem is returned unchanged and no `mkdir` event is emitted. -/
theorem mk_config_file_dir_conditional (fs : FS) (dest_config : String) :
    (pathExists fs (osPathDirname dest_config) = true →
      PostInstallCommand.mk_config_file_dir fs dest_config = (fs, [])) ∧
    (pathExists fs (osPathDirname dest_config) = false →
      PostInstallCommand.mk_config_file_dir fs dest_config =
        (mkdirFS fs (osPathDirname dest_config),
         [Event.mkdir (osPathDirname dest_config)])) := by
  simp only [PostInstallCommand.mk_config_file_dir]
  constructor <;> intro h <;> simp [h]

/-- C2 witness: with `/usr/etc` present the filesystem is unchanged and no
event occurs; with it absent, exactly one `mkdir` happens. -/
theorem mk_config_file_dir_conditional_witness :
    PostInstallCommand.mk_config_file_dir
        ⟨fun d => d = "/usr/etc", fun _ => none⟩ "/usr/etc/autobackup.cfg" =
      (⟨fun d => d = "/usr/etc", fun _ => none⟩, []) ∧
    PostInstallCommand.mk_config_file_dir
        ⟨fun _ => false, fun _ => none⟩ "/usr/etc/autobackup.cfg" =
      (mkdirFS ⟨fun _ => false, fun _ => none⟩ (osPathDirname "/usr/etc/autobackup.cfg"),
       [Event.mkdir (osPathDirname "/usr/etc/autobackup.cfg")]) :=
  ⟨(mk_config_file_dir_conditional _ _).1 (by decide),
   (mk_config_file_dir_conditional _ _).2 (by decide)⟩

/-- C3: the configuration file's destination is the fixed path
`<sys.prefix>/etc/autobackup.cfg` (for any ordinary prefix: nonempty, not
ending in a slash), and `_install_config_file` copies exactly to that path. -/
theorem dest_config_path_fixed (pfx : String) (h1 : pfx ≠ "")
    (h2 : endsWithSlash pfx = false) :
    DEST_CONFIG_FILE pfx = pfx ++ "/etc/autobackup.cfg" ∧
    ∀ fs c st, fs.files SRC_CONFIG_FILE = some c →
      PostInstallCommand.install_config_file pfx fs = Except.ok st →
      Event.copyFile SRC_CONFIG_FILE (DEST_CONFIG_FILE pfx) ∈ st.2 := by
  constructor
  · have hde : pfx.data ≠ [] := fun h => h1 (String.ext h)
    have hie : pfx.data.isEmpty = false := by
      cases hd : pfx.data with
      | nil => exact absurd hd hde
      | cons a l => simp
    have hj1 : osPathJoin pfx "etc" = pfx ++ "/" ++ "etc" := by
      unfold osPathJoin
      rw [show startsWithSlash "etc" = false from by decide, hie, h2]
      simp
    have hr1e : endsWithSlash (pfx ++ "/" ++ "etc") = false := by
      simp only [endsWithSlash, strData_append, List.getLast?_append]
      simp
    have hr1ne : (pfx ++ "/" ++ "etc").data.isEmpty = false := by
      simp only [strData_append]
      simp [List.isEmpty_iff]
    have hj2 : osPathJoin (pfx ++ "/" ++ "etc") "autobackup.cfg" =
        pfx ++ "/" ++ "etc" ++ "/" ++ "autobackup.cfg" := by
      unfold osPathJoin
      rw [show startsWithSlash "autobackup.cfg" = false from by decide, hr1ne, hr1e]
      simp
    unfold DEST_CONFIG_FILE
    rw [hj1, hj2]
    apply String.ext
    simp only [strData_append, List.append_assoc]
    rfl
  · intro fs c st hsrc hok
    rw [install_config_file_ok pfx fs c hsrc] at hok
    cases hok
    simp

/-- C3 witness: for the concrete prefix `/usr` the destination is
`/usr/etc/autobackup.cfg`, and a concrete install copies to it. -/
theorem dest_config_path_fixed_witness :
    DEST_CONFIG_FILE "/usr" = "/usr" ++ "/etc/autobackup.cfg" ∧
    ∀ fs c st, fs.files SRC_CONFIG_FILE = some c →
      PostInstallCommand.install_config_file "/usr" fs = Except.ok st →
      Event.copyFile SRC_CONFIG_FILE (DEST_CONFIG_FILE "/usr") ∈ st.2 :=
  dest_config_path_fixed "/usr" (by decide) (by decide)

/-- C4: the printed reminder is exactly two lines, and the crontab line has
fields minute `0`, hour `2`, `*` for day-of-month, month and day-of-week
(every day), user `root`, command `/usr/local/bin/autobackup`; the package
installs a single script. -/
theorem cron_reminder_schedules_daily_2am :
    PostInstallCommand.print_cron_update_cmd =
      [Event.print cronReminderHeader, Event.print cronLine] ∧
    wordsOf cronLine = ["0", "2", "*", "*", "*", "root", "/usr/local/bin/autobackup"] ∧
    setupScripts = ["scripts/autobackup"] ∧
    setupScripts.length = 1 :=
  ⟨rfl, by decide, rfl, rfl⟩

/-- C9: under an interpreter whose major version is below 3, the script
exits with the message `Sorry, Python < 3.x is not supported`; the result
carries no filesystem and no events, so no installation action happened. -/
theorem version_guard_blocks_install (major : Nat) (rest : List Nat)
    (pfx : String) (fs : FS) (h3 : major < 3) :
    setupPyMain (major :: rest) pfx fs =
      Except.error "Sorry, Python < 3.x is not supported" := by
  simp only [setupPyMain, pyVersionLt]
  rw [if_pos h3]
  simp

/-- C9 witness: Python 2.7.18 is rejected with the exact message. -/
theorem version_guard_blocks_install_witness :
    setupPyMain [2, 7, 18] "/usr" ⟨fun _ => false, fun _ => none⟩ =
      Except.error "Sorry, Python < 3.x is not supported" :=
  version_guard_blocks_install 2 [7, 18] "/usr" _ (by decide)

/-- C10: whenever the source configuration file exists, `_install_config_file`
succeeds and after it the destination `<sys.prefix>/etc/autobackup.cfg` holds
exactly the source's content — for every prior filesystem state, hence also
when a different file already sat at the destination (unconditional
overwrite, no skip-unchanged check). -/
theorem install_config_file_overwrites (pfx : String) (fs : FS) (c : String)
    (h : fs.files SRC_CONFIG_FILE = some c) :
    ∃ st, PostInstallCommand.install_config_file pfx fs = Except.ok st ∧
      st.1.files (DEST_CONFIG_FILE pfx) = some c ∧
      Event.copyFile SRC_CONFIG_FILE (DEST_CONFIG_FILE pfx) ∈ st.2 := by
  refine ⟨_, install_config_file_ok pfx fs c h, ?_, ?_⟩
  · simp [writeFileFS]
  · simp

/-- C10 witness: with stale content `"old"` already at `/usr/etc/autobackup.cfg`,
the copy still happens and the destination ends up with the source's
content `"new"`. -/
theorem install_config_file_overwrites_witness :
    ∃ st, PostInstallCommand.install_config_file "/usr"
        ⟨fun _ => false,
         fun p => if p = SRC_CONFIG_FILE then some "new"
                  else if p = DEST_CONFIG_FILE "/usr" then some "old" else none⟩ =
        Except.ok st ∧
      st.1.files (DEST_CONFIG_FILE "/usr") = some "new" ∧
      Event.copyFile SRC_CONFIG_FILE (DEST_CONFIG_FILE "/usr") ∈ st.2 :=
  install_config_file_overwrites "/usr" _ "new" (by decide)

/-!
## The backup core, modelled from the specification

The repository ships only the installer; the backup core it installs
(`ConfigLoader`, `BackupEngine`) is not among the source files. The
definitions below are therefore modelled from the specification's words
(sections 2-4, 6-8 of the design document) and stated as such in each
doc comment.
-/

/-- Modelled from the spec: a `WorkstationEntry` — "name (unique string
identifier), source path(s)" — parsed from one configuration line. The model
gives each entry one source path; the destination root is passed to the
engine, as in the engine's contract. (The repository's actual loader/engine
sources are missing.) -/
structure WorkstationEntry where
  name : String
  source : String
deriving DecidableEq

/-- Modelled from the spec: the errors of `ConfigLoader` — "file missing,
malformed line, duplicate name". -/
inductive ConfigError where
  | fileMissing : ConfigError
  | malformedLine (lineNo : Nat) : ConfigError
  | duplicateName (name : String) : ConfigError
deriving DecidableEq

/-- Modelled from the spec: is a configuration line blank? -/
def isBlankLine (ln : String) : Bool := ln.data.all Char.isWhitespace

/-- Modelled from the spec: is a configuration line a comment (first
non-blank character `#`)? -/
def isCommentLine (ln : String) : Bool :=
  (ln.data.dropWhile Char.isWhitespace).head? = some '#'

/-- Modelled from the spec: parse one non-blank, non-comment line — "one
workstation per logical entry": the entry name followed by its source path;
anything else is malformed. -/
def parseEntryLine (ln : String) : Option WorkstationEntry :=
  match wordsOf ln with
  | [n, s] => some ⟨n, s⟩
  | _ => none

/-- Modelled from the spec: "parsing is line-oriented; blank lines and
comment lines are ignored"; the first malformed line aborts with its line
number. -/
def parseLines : Nat → List String → Except ConfigError (List WorkstationEntry)
  | _, [] => Except.ok []
  | i, ln :: rest =>
    if isBlankLine ln || isCommentLine ln then parseLines (i + 1) rest
    else
      match parseEntryLine ln with
      | none => Except.error (ConfigError.malformedLine i)
      | some e =>
        match parseLines (i + 1) rest with
        | Except.error err => Except.error err
        | Except.ok es => Except.ok (e :: es)

/-- Modelled from the spec: the first entry name that occurs twice, if any
("duplicate name" is a `ConfigError`). -/
def firstDupName : List WorkstationEntry → Option String
  | [] => none
  | e :: es => if es.any (fun x => x.name = e.name) then some e.name else firstDupName es

/-- Modelled from the spec: `ConfigLoader` — "given a file path, produces an
ordered sequence of WorkstationEntry records or fails with a ConfigError
(file missing, malformed line, duplicate name)". The file is `none` when
missing, otherwise its list of lines. -/
def loadConfig : Option (List String) → Except ConfigError (List WorkstationEntry)
  | none => Except.error ConfigError.fileMissing
  | some lines =>
    match parseLines 1 lines with
    | Except.error err => Except.error err
    | Except.ok es =>
      match firstDupName es with
      | some n => Except.error (ConfigError.duplicateName n)
      | none => Except.ok es

/-- Modelled from the spec: one file of a source tree, with the metadata the
engine compares — "modification-time and size" — and whether it is readable. -/
structure SrcFile where
  relpath : String
  mtime : Nat
  size : Nat
  readable : Bool
deriving DecidableEq

/-- Modelled from the spec: the world of source trees — each source path is
either missing/unreadable (`none`) or a readable directory listing. -/
def World : Type := String → Option (List SrcFile)

/-- Modelled from the spec: a destination file path
`<destination_root>/<entry.name>/<run_date>/<relpath>`, kept structured. -/
structure DestPath where
  root : String
  entryName : String
  runDate : String
  relpath : String
deriving DecidableEq

/-- Modelled from the spec: the destination filesystem, mapping each
destination path to the (mtime, size) metadata of the file stored there. -/
def DestFS : Type := DestPath → Option (Nat × Nat)

/-- Write a file (with its source metadata, which the copy preserves) into
the destination filesystem. -/
def writeDest (d : DestFS) (k : DestPath) (v : Nat × Nat) : DestFS :=
  fun k2 => if k2 = k then some v else d k2

/-- Per-scope counters of a backup: files "copied/skipped/failed". -/
structure FileCounts where
  copied : Nat
  skipped : Nat
  failed : Nat
deriving DecidableEq

/-- Pointwise sum of counters. -/
def FileCounts.add (a b : FileCounts) : FileCounts :=
  ⟨a.copied + b.copied, a.skipped + b.skipped, a.failed + b.failed⟩

/-- Modelled from the spec: back up one source file of entry `nm` —
"uses modification-time and size comparison to skip unchanged files";
"an unreadable source file is recorded as a failure for that file only". -/
def backupFile1 (dr nm rd : String) (d : DestFS) (f : SrcFile) : DestFS × FileCounts :=
  if f.readable then
    let k : DestPath := ⟨dr, nm, rd, f.relpath⟩
    match d k with
    | some m =>
      if m = (f.mtime, f.size) then (d, ⟨0, 1, 0⟩)
      else (writeDest d k (f.mtime, f.size), ⟨1, 0, 0⟩)
    | none => (writeDest d k (f.mtime, f.size), ⟨1, 0, 0⟩)
  else (d, ⟨0, 0, 1⟩)

/-- Modelled from the spec: back up all files of one source listing, in
order, threading the destination state. -/
def backupFiles (dr nm rd : String) (d : DestFS) : List SrcFile → DestFS × FileCounts
  | [] => (d, ⟨0, 0, 0⟩)
  | f :: fs =>
    let st1 := backupFile1 dr nm rd d f
    let st2 := backupFiles dr nm rd st1.1 fs
    (st2.1, FileCounts.add st1.2 st2.2)

/-- The per-entry outcome recorded in the run summary. -/
structure EntryOutcome where
  name : String
  copied : Nat
  skipped : Nat
  failed : Nat
deriving DecidableEq

/-- An entry succeeded when none of its files (nor its source path) failed. -/
def EntryOutcome.isOk (o : EntryOutcome) : Bool := o.failed = 0

/-- Modelled from the spec: back up one entry — "a missing or unreadable
source path fails that entry only, not the whole run". -/
def backupEntry (w : World) (dr rd : String) (d : DestFS) (e : WorkstationEntry) :
    DestFS × EntryOutcome :=
  match w e.source with
  | none => (d, ⟨e.name, 0, 0, 1⟩)
  | some fs =>
    let st := backupFiles dr e.name rd d fs
    (st.1, ⟨e.name, st.2.copied, st.2.skipped, st.2.failed⟩)

/-- Modelled from the spec: process the entries sequentially, threading the
destination state and collecting one outcome per entry. -/
def engineEntries (w : World) (dr rd : String) (d : DestFS) :
    List WorkstationEntry → DestFS × List EntryOutcome
  | [] => (d, [])
  | e :: es =>
    let st1 := backupEntry w dr rd d e
    let st2 := engineEntries w dr rd st1.1 es
    (st2.1, st1.2 :: st2.2)

/-- Modelled from the spec: the `BackupRun` summary — "timestamp, list of
per-entry outcomes (copied/skipped/failed counts)". -/
structure BackupRun where
  runDate : String
  outcomes : List EntryOutcome
deriving DecidableEq

/-- Total number of files copied over the whole run. -/
def BackupRun.totalCopied (r : BackupRun) : Nat :=
  (r.outcomes.map EntryOutcome.copied).sum

/-- Modelled from the spec: `BackupEngine` — "given the entry list and a
destination root, for each entry performs a recursive copy from source to
`<destination_root>/<entry.name>/<run_date>/` ... returns a BackupRun
summary". -/
def engineRun (w : World) (dr rd : String) (d : DestFS)
    (entries : List WorkstationEntry) : DestFS × BackupRun :=
  let st := engineEntries w dr rd d entries
  (st.1, ⟨rd, st.2⟩)

/-- Modelled from the spec: one whole program run — load the configuration,
and only on success run the engine; "ConfigError (missing/malformed config)
is fatal to the whole run". -/
def programRun (cfg : Option (List String)) (w : World) (dr rd : String)
    (d : DestFS) : DestFS × Except ConfigError BackupRun :=
  match loadConfig cfg with
  | Except.error e => (d, Except.error e)
  | Except.ok es =>
    let st := engineRun w dr rd d es
    (st.1, Except.ok st.2)

/-- Modelled from the spec: exit codes — "0 on full success, non-zero if any
entry failed, distinguishing 'run completed with partial failures' from 'run
could not start'". -/
def exitCode : Except ConfigError BackupRun → Nat
  | Except.error _ => 2
  | Except.ok r => if r.outcomes.all EntryOutcome.isOk then 0 else 1

deriving instance DecidableEq for Except

/-! ## Lemmas about the modelled backup core -/

theorem writeDest_same (d : DestFS) (k : DestPath) (v : Nat × Nat) :
    writeDest d k v k = some v := by
  simp [writeDest]

theorem writeDest_other (d : DestFS) (k : DestPath) (v : Nat × Nat)
    (k2 : DestPath) (h : k2 ≠ k) : writeDest d k v k2 = d k2 := by
  simp [writeDest, h]

theorem backupEntry_name (w : World) (dr rd : String) (d : DestFS)
    (e : WorkstationEntry) : (backupEntry w dr rd d e).2.name = e.name := by
  cases hw : w e.source <;> simp [backupEntry, hw]

theorem engineEntries_names (w : World) (dr rd : String) :
    ∀ (es : List WorkstationEntry) (d : DestFS),
      (engineEntries w dr rd d es).2.map EntryOutcome.name =
        es.map WorkstationEntry.name := by
  intro es
  induction es with
  | nil => intro d; rfl
  | cons e es ih =>
    intro d
    simp only [engineEntries, List.map_cons]
    rw [backupEntry_name, ih]

theorem engineEntries_append (w : World) (dr rd : String) :
    ∀ (l1 l2 : List WorkstationEntry) (d : DestFS),
      engineEntries w dr rd d (l1 ++ l2) =
        ((engineEntries w dr rd (engineEntries w dr rd d l1).1 l2).1,
         (engineEntries w dr rd d l1).2 ++
           (engineEntries w dr rd (engineEntries w dr rd d l1).1 l2).2) := by
  intro l1
  induction l1 with
  | nil => intro l2 d; rfl
  | cons e es ih =>
    intro l2 d
    simp only [List.cons_append, engineEntries, List.append_eq, ih]

/-- C5: a failing entry (here: missing/unreadable source path) fails only
that entry: the run still yields a summary with one outcome per entry, in
order, every remaining entry is processed, and the failing entry's outcome
records one failure — the run is never aborted. -/
theorem backupEngine_failure_isolation (w : World) (dr rd : String) (d : DestFS)
    (pre post : List WorkstationEntry) (e : WorkstationEntry)
    (h : w e.source = none) :
    ((engineRun w dr rd d (pre ++ e :: post)).2).outcomes.map EntryOutcome.name =
      (pre ++ e :: post).map WorkstationEntry.name ∧
    ((engineRun w dr rd d (pre ++ e :: post)).2).outcomes.length =
      pre.length + 1 + post.length ∧
    ((engineRun w dr rd d (pre ++ e :: post)).2).outcomes[pre.length]? =
      some ⟨e.name, 0, 0, 1⟩ := by
  refine ⟨engineEntries_names w dr rd _ d, ?_, ?_⟩
  · have hn := congrArg List.length (engineEntries_names w dr rd (pre ++ e :: post) d)
    simp only [List.length_map, List.length_append, List.length_cons] at hn
    show (engineEntries w dr rd d (pre ++ e :: post)).2.length = pre.length + 1 + post.length
    omega
  · show (engineEntries w dr rd d (pre ++ e :: post)).2[pre.length]? = _
    rw [engineEntries_append]
    have hlen : (engineEntries w dr rd d pre).2.length = pre.length := by
      have hn := congrArg List.length (engineEntries_names w dr rd pre d)
      simpa using hn
    rw [List.getElem?_append_right (by omega)]
    simp only [hlen, Nat.sub_self]
    simp [engineEntries, backupEntry, h]

/-- A concrete world with a single empty, readable source directory `/a`,
used by witnesses. -/
def witWorld : World := fun p => if p = "/a" then some [] else none

/-- A concrete empty destination filesystem, used by witnesses. -/
def witDest : DestFS := fun _ => none

/-- Concrete entries surrounding a failing one, used by witnesses. -/
def witPre : List WorkstationEntry := [⟨"w1", "/a"⟩]

/-- The concrete entry whose source path is missing, used by witnesses. -/
def witBad : WorkstationEntry := ⟨"bad", "/missing"⟩

/-- Concrete entries after the failing one, used by witnesses. -/
def witPost : List WorkstationEntry := [⟨"w2", "/a"⟩]

/-- C5 witness: the middle entry's source is missing; both other entries
still get outcomes and the run reports everything. -/
theorem backupEngine_failure_isolation_witness :
    ((engineRun witWorld "/backup" "d1" witDest (witPre ++ witBad :: witPost)).2).outcomes.map
        EntryOutcome.name = (witPre ++ witBad :: witPost).map WorkstationEntry.name ∧
    ((engineRun witWorld "/backup" "d1" witDest (witPre ++ witBad :: witPost)).2).outcomes.length =
      witPre.length + 1 + witPost.length ∧
    ((engineRun witWorld "/backup" "d1" witDest (witPre ++ witBad :: witPost)).2).outcomes[witPre.length]? =
      some ⟨"bad", 0, 0, 1⟩ :=
  backupEngine_failure_isolation witWorld "/backup" "d1" witDest witPre witPost witBad (by decide)

theorem firstDupName_none_nodup :
    ∀ es : List WorkstationEntry,
      firstDupName es = none → (es.map WorkstationEntry.name).Nodup := by
  intro es
  induction es with
  | nil => simp
  | cons e es ih =>
    simp only [firstDupName]
    split
    · intro h; exact absurd h (by simp)
    · intro h
      rename_i hc
      simp only [List.map_cons, List.nodup_cons]
      refine ⟨?_, ih h⟩
      intro hm
      apply hc
      simp only [List.any_eq_true, decide_eq_true_iff]
      obtain ⟨x, hx, he⟩ := List.mem_map.1 hm
      exact ⟨x, hx, he⟩

/-- C6: the configuration loader's contract — a missing file is a
`ConfigError`; a successful load yields entries with pairwise-distinct names
(so a duplicate name can never load successfully); and any `ConfigError` is
fatal to the whole run: the engine never starts and the destination
filesystem is untouched (no copy occurs). -/
theorem configLoader_contract (cfg : Option (List String)) (w : World)
    (dr rd : String) (d : DestFS) :
    (cfg = none → loadConfig cfg = Except.error ConfigError.fileMissing) ∧
    (∀ es, loadConfig cfg = Except.ok es → (es.map WorkstationEntry.name).Nodup) ∧
    (∀ err, loadConfig cfg = Except.error err →
      programRun cfg w dr rd d = (d, Except.error err)) := by
  refine ⟨fun h => by subst h; rfl, ?_, ?_⟩
  · intro es hok
    cases cfg with
    | none => exact absurd hok (by simp [loadConfig])
    | some lines =>
      simp only [loadConfig] at hok
      cases hp : parseLines 1 lines with
      | error err => simp [hp] at hok
      | ok es2 =>
        simp only [hp] at hok
        cases hd : firstDupName es2 with
        | some n => simp [hd] at hok
        | none =>
          simp only [hd] at hok
          cases hok
          exact firstDupName_none_nodup _ hd
  · intro err herr
    simp [programRun, herr]

/-- C6 witness: a configuration with the duplicate entry name `ws1` fails
with `ConfigError.duplicateName` and the whole run leaves the destination
untouched. -/
theorem configLoader_contract_witness :
    loadConfig (some ["ws1 /data/ws1", "ws1 /data/other"]) =
      Except.error (ConfigError.duplicateName "ws1") ∧
    programRun (some ["ws1 /data/ws1", "ws1 /data/other"]) (fun _ => none)
        "/backup" "d1" (fun _ => none) =
      ((fun _ => none), Except.error (ConfigError.duplicateName "ws1")) :=
  ⟨by decide,
   (configLoader_contract (some ["ws1 /data/ws1", "ws1 /data/other"]) (fun _ => none)
      "/backup" "d1" (fun _ => none)).2.2 (ConfigError.duplicateName "ws1") (by decide)⟩

/-- C8: the program exits 0 exactly when the run started and every entry
succeeded; an empty configuration processes zero entries and exits 0; a
completed run with a failed entry exits 1, distinct from the exit code 2 of
a run that could not start (`ConfigError`). -/
theorem exit_code_contract (cfg : Option (List String)) (w : World)
    (dr rd : String) (d : DestFS) :
    (exitCode (programRun cfg w dr rd d).2 = 0 ↔
      ∃ r, (programRun cfg w dr rd d).2 = Except.ok r ∧
        r.outcomes.all EntryOutcome.isOk = true) ∧
    (cfg = some [] → (programRun cfg w dr rd d).2 = Except.ok ⟨rd, []⟩ ∧
      exitCode (programRun cfg w dr rd d).2 = 0) ∧
    (∀ err r, r.outcomes.all EntryOutcome.isOk = false →
      exitCode (Except.ok r) ≠ 0 ∧ exitCode (Except.error err) ≠ 0 ∧
      exitCode (Except.ok r) ≠ exitCode (Except.error err)) := by
  refine ⟨?_, ?_, ?_⟩
  · cases hl : loadConfig cfg with
    | error err =>
      simp [programRun, hl, exitCode]
    | ok es =>
      simp only [programRun, hl, exitCode]
      constructor
      · intro h
        refine ⟨(engineRun w dr rd d es).2, rfl, ?_⟩
        cases ha : ((engineRun w dr rd d es).2).outcomes.all EntryOutcome.isOk with
        | true => rfl
        | false => rw [ha] at h; simp at h
      · rintro ⟨r, hr, hall⟩
        cases hr
        simp [hall]
  · intro h
    subst h
    constructor
    · rfl
    · rfl
  · intro err r hall
    simp [exitCode, hall]

/-- C8 witness: the empty configuration runs, reports zero entries and exits
with code 0. -/
theorem exit_code_contract_witness :
    (programRun (some []) (fun _ => none) "/backup" "d1" (fun _ => none)).2 =
      Except.ok ⟨"d1", []⟩ ∧
    exitCode (programRun (some []) (fun _ => none) "/backup" "d1" (fun _ => none)).2 = 0 :=
  (exit_code_contract (some []) (fun _ => none) "/backup" "d1" (fun _ => none)).2.1 rfl

/-! ## Idempotence of re-runs (C7) -/

theorem backupFile1_preserve (dr nm rd : String) (d : DestFS) (f : SrcFile)
    (k : DestPath) (h : k ≠ DestPath.mk dr nm rd f.relpath) :
    (backupFile1 dr nm rd d f).1 k = d k := by
  simp only [backupFile1]
  split
  · split
    · split
      · rfl
      · exact writeDest_other d _ _ k h
    · exact writeDest_other d _ _ k h
  · rfl

theorem backupFiles_preserve (dr nm rd : String) :
    ∀ (fs : List SrcFile) (d : DestFS) (k : DestPath),
      (∀ f ∈ fs, k ≠ DestPath.mk dr nm rd f.relpath) →
      (backupFiles dr nm rd d fs).1 k = d k := by
  intro fs
  induction fs with
  | nil => intro d k _; rfl
  | cons f fs ih =>
    intro d k h
    simp only [backupFiles]
    rw [ih _ k (fun g hg => h g (List.mem_cons_of_mem f hg))]
    exact backupFile1_preserve dr nm rd d f k (h f (List.mem_cons_self f fs))

theorem backupFile1_sets (dr nm rd : String) (d : DestFS) (f : SrcFile)
    (h : f.readable = true) :
    (backupFile1 dr nm rd d f).1 (DestPath.mk dr nm rd f.relpath) =
      some (f.mtime, f.size) := by
  cases hm : d ⟨dr, nm, rd, f.relpath⟩ with
  | none => simp [backupFile1, h, hm, writeDest]
  | some m =>
    by_cases hEq : m = (f.mtime, f.size)
    · simp [backupFile1, h, hm, hEq]
    · simp [backupFile1, h, hm, hEq, writeDest]

theorem backupFiles_sets (dr nm rd : String) :
    ∀ (fs : List SrcFile) (d : DestFS),
      (fs.map SrcFile.relpath).Nodup →
      ∀ f ∈ fs, f.readable = true →
        (backupFiles dr nm rd d fs).1 (DestPath.mk dr nm rd f.relpath) =
          some (f.mtime, f.size) := by
  intro fs
  induction fs with
  | nil => intro d _ f hf; cases hf
  | cons g fs ih =>
    intro d hnd f hf hr
    simp only [backupFiles]
    rcases List.mem_cons.1 hf with hh | hh
    · subst hh
      rw [backupFiles_preserve]
      · exact backupFile1_sets dr nm rd d f hr
      · intro f2 hf2 hkeq
        have hrel : f.relpath = f2.relpath := congrArg DestPath.relpath hkeq
        have : f.relpath ∈ fs.map SrcFile.relpath :=
          List.mem_map.2 ⟨f2, hf2, hrel.symm⟩
        exact (List.nodup_cons.1 hnd).1 this
    · exact ih _ (List.nodup_cons.1 hnd).2 f hh hr

theorem backupFile1_clean (dr nm rd : String) (d : DestFS) (f : SrcFile)
    (h : f.readable = true →
      d (DestPath.mk dr nm rd f.relpath) = some (f.mtime, f.size)) :
    (backupFile1 dr nm rd d f).1 = d ∧ (backupFile1 dr nm rd d f).2.copied = 0 := by
  cases hr : f.readable with
  | false => simp [backupFile1, hr]
  | true => simp [backupFile1, hr, h hr]

theorem backupFiles_clean (dr nm rd : String) :
    ∀ (fs : List SrcFile) (d : DestFS),
      (∀ f ∈ fs, f.readable = true →
        d (DestPath.mk dr nm rd f.relpath) = some (f.mtime, f.size)) →
      (backupFiles dr nm rd d fs).1 = d ∧ (backupFiles dr nm rd d fs).2.copied = 0 := by
  intro fs
  induction fs with
  | nil => intro d _; exact ⟨rfl, rfl⟩
  | cons f fs ih =>
    intro d h
    have h1 := backupFile1_clean dr nm rd d f (h f (List.mem_cons_self f fs))
    simp only [backupFiles, h1.1]
    have h2 := ih d (fun g hg => h g (List.mem_cons_of_mem f hg))
    exact ⟨h2.1, by simp [FileCounts.add, h1.2, h2.2]⟩

theorem backupEntry_preserve (w : World) (dr rd : String) (d : DestFS)
    (e : WorkstationEntry) (k : DestPath) (h : k.entryName ≠ e.name) :
    (backupEntry w dr rd d e).1 k = d k := by
  cases hw : w e.source with
  | none => simp [backupEntry, hw]
  | some fs =>
    simp only [backupEntry, hw]
    apply backupFiles_preserve
    intro f _ hk
    exact h (by rw [hk])

theorem backupEntry_sets (w : World) (dr rd : String) (d : DestFS)
    (e : WorkstationEntry)
    (hrel : (((w e.source).getD []).map SrcFile.relpath).Nodup)
    (f : SrcFile) (hf : f ∈ (w e.source).getD []) (hr : f.readable = true) :
    (backupEntry w dr rd d e).1 (DestPath.mk dr e.name rd f.relpath) =
      some (f.mtime, f.size) := by
  cases hw : w e.source with
  | none => rw [hw] at hf; cases hf
  | some fs =>
    rw [hw] at hf hrel
    simp only [backupEntry, hw]
    exact backupFiles_sets dr e.name rd fs d hrel f hf hr

theorem backupEntry_clean (w : World) (dr rd : String) (d : DestFS)
    (e : WorkstationEntry)
    (h : ∀ f ∈ (w e.source).getD [], f.readable = true →
      d (DestPath.mk dr e.name rd f.relpath) = some (f.mtime, f.size)) :
    (backupEntry w dr rd d e).1 = d ∧ (backupEntry w dr rd d e).2.copied = 0 := by
  cases hw : w e.source with
  | none => simp [backupEntry, hw]
  | some fs =>
    rw [hw] at h
    simp only [backupEntry, hw]
    have hc := backupFiles_clean dr e.name rd fs d h
    exact ⟨hc.1, hc.2⟩

theorem engineEntries_preserve (w : World) (dr rd : String) :
    ∀ (es : List WorkstationEntry) (d : DestFS) (k : DestPath),
      (∀ e ∈ es, k.entryName ≠ e.name) →
      (engineEntries w dr rd d es).1 k = d k := by
  intro es
  induction es with
  | nil => intro d k _; rfl
  | cons e es ih =>
    intro d k h
    simp only [engineEntries]
    rw [ih _ k (fun g hg => h g (List.mem_cons_of_mem e hg))]
    exact backupEntry_preserve w dr rd d e k (h e (List.mem_cons_self e es))

theorem engineEntries_sets (w : World) (dr rd : String) :
    ∀ (es : List WorkstationEntry) (d : DestFS),
      (es.map WorkstationEntry.name).Nodup →
      (∀ e ∈ es, (((w e.source).getD []).map SrcFile.relpath).Nodup) →
      ∀ e ∈ es, ∀ f ∈ (w e.source).getD [], f.readable = true →
        (engineEntries w dr rd d es).1 (DestPath.mk dr e.name rd f.relpath) =
          some (f.mtime, f.size) := by
  intro es
  induction es with
  | nil => intro d _ _ e he; cases he
  | cons g es ih =>
    intro d hnd hrel e he f hf hr
    simp only [engineEntries]
    rcases List.mem_cons.1 he with hh | hh
    · subst hh
      rw [engineEntries_preserve]
      · exact backupEntry_sets w dr rd d e (hrel e (List.mem_cons_self e es)) f hf hr
      · intro e2 he2 hname
        have : e.name ∈ es.map WorkstationEntry.name :=
          List.mem_map.2 ⟨e2, he2, hname.symm⟩
        exact (List.nodup_cons.1 hnd).1 this
    · exact ih _ (List.nodup_cons.1 hnd).2
        (fun e2 he2 => hrel e2 (List.mem_cons_of_mem g he2)) e hh f hf hr

theorem engineEntries_clean (w : World) (dr rd : String) :
    ∀ (es : List WorkstationEntry) (d : DestFS),
      (∀ e ∈ es, ∀ f ∈ (w e.source).getD [], f.readable = true →
        d (DestPath.mk dr e.name rd f.relpath) = some (f.mtime, f.size)) →
      (engineEntries w dr rd d es).1 = d ∧
        ∀ o ∈ (engineEntries w dr rd d es).2, o.copied = 0 := by
  intro es
  induction es with
  | nil => intro d _; exact ⟨rfl, by intro o ho; cases ho⟩
  | cons e es ih =>
    intro d h
    have h1 := backupEntry_clean w dr rd d e (h e (List.mem_cons_self e es))
    simp only [engineEntries, h1.1]
    have h2 := ih d (fun g hg => h g (List.mem_cons_of_mem e hg))
    refine ⟨h2.1, ?_⟩
    intro o ho
    rcases List.mem_cons.1 ho with hh | hh
    · rw [hh]; exact h1.2
    · exact h2.2 o hh

/-- C7 counterexample: the claim fails as stated. An unchanged source tree
(one readable file `f.txt` under `/data`) backed up by two consecutive daily
runs — run dates `2026-10-11` then `2026-10-12` — is fully re-copied on the
second run (1 file copied, not 0), because each run's destination is rooted
by its own run date. -/
theorem rerun_next_day_recopies :
    ((engineRun (fun p => if p = "/data" then some [⟨"f.txt", 5, 10, true⟩] else none)
        "/backup" "2026-10-12"
        ((engineRun (fun p => if p = "/data" then some [⟨"f.txt", 5, 10, true⟩] else none)
            "/backup" "2026-10-11" (fun _ => none) [⟨"ws1", "/data"⟩]).1)
        [⟨"ws1", "/data"⟩]).2).totalCopied = 1 := by
  decide

/-- C7 (amended): for every source tree left unchanged between two runs with
the same run date (and well-formed inputs: unique entry names — the spec's
invariant — and duplicate-free relative paths within each source listing),
the second run re-copies zero files: the modification-time and size
comparison makes re-running a backup idempotent. -/
theorem rerun_same_date_copies_nothing (w : World) (dr rd : String) (d : DestFS)
    (entries : List WorkstationEntry)
    (hn : (entries.map WorkstationEntry.name).Nodup)
    (hr : ∀ e ∈ entries, (((w e.source).getD []).map SrcFile.relpath).Nodup) :
    ((engineRun w dr rd (engineRun w dr rd d entries).1 entries).2).totalCopied = 0 := by
  have hsets := engineEntries_sets w dr rd entries d hn hr
  have hclean := engineEntries_clean w dr rd entries (engineEntries w dr rd d entries).1
    (fun e he f hf hfr => hsets e he f hf hfr)
  show ((engineEntries w dr rd (engineEntries w dr rd d entries).1 entries).2.map
    EntryOutcome.copied).sum = 0
  apply List.sum_eq_zero
  intro x hx
  obtain ⟨o, ho, rfl⟩ := List.mem_map.1 hx
  exact hclean.2 o ho

/-- C7 witness for the amended claim: a concrete re-run with the same run
date copies zero files. -/
theorem rerun_same_date_copies_nothing_witness :
    ((engineRun (fun p => if p = "/data" then some [⟨"f.txt", 5, 10, true⟩] else none)
        "/backup" "2026-10-11"
        ((engineRun (fun p => if p = "/data" then some [⟨"f.txt", 5, 10, true⟩] else none)
            "/backup" "2026-10-11" (fun _ => none) [⟨"ws1", "/data"⟩]).1)
        [⟨"ws1", "/data"⟩]).2).totalCopied = 0 :=
  rerun_same_date_copies_nothing
    (fun p => if p = "/data" then some [⟨"f.txt", 5, 10, true⟩] else none)
    "/backup" "2026-10-11" (fun _ => none) [⟨"ws1", "/data"⟩]
    (by decide) (by decide)
